import Mathlib

/-!
Shallow embedding of src/Aberation_cnn.py.

The repository is a single PyTorch file implementing pixel-domain aberration
pre-correction.  The parts the claims are about:

* class PaperParams (lines 27-36): module-level constants.
* AberrationCNN.get_features (lines 63-67): conv1/bn1/relu, conv2/bn2/relu.
  Convolution and batch-norm layers are modelled as abstract functions on
  tensors (their numerics are irrelevant to the claims); ReLU is modelled
  exactly as the pointwise map x maps to max 0 x.
* class AberrationLoss (lines 94-125): forward computes
  omega * (1 - ssim(pred, target, data_range)) + (1 - omega) * mse(pred, target)
  with omega = PaperParams.OMEGA and data_range = PaperParams.DATA_RANGE.
  The external pytorch_msssim.ssim raises ValueError when the two input
  shapes differ (its documented input validation), before any arithmetic;
  the SSIM value itself is an abstract parameter.  nn.MSELoss with
  reduction mean is modelled exactly: mean of squared elementwise
  differences.
* correct_single_microlens (lines 128-214): the optimization loop.  The
  tensor numerics (autograd, SGD with momentum) are abstracted into two
  oracle sequences: L k is the scalar loss observed at epoch k
  (loss.item(), line 182), and S k is the value of the subject tensor
  initial_ei at the start of epoch k, so that the loss of epoch k is
  evaluated on S k and optimizer.step() of epoch k (line 179) turns the
  subject into S (k+1).  The snapshot at line 198 is taken after
  optimizer.step(), hence stores S (k+1).  Everything else in the loop
  (best_loss, early_stop_counter, preliminary_ei, loss_history, the
  ReduceLROnPlateau scheduler state, the break condition) is bookkeeping
  on rationals and is embedded exactly.  Floats are idealized as rationals.
* torch.optim.lr_scheduler.ReduceLROnPlateau (line 153): modelled from the
  documented PyTorch semantics of the call site
  ReduceLROnPlateau(optimizer, min, factor=0.8, patience=3) with its
  defaults threshold=1e-4, threshold_mode=rel, cooldown=0, min_lr=0,
  eps=1e-8: step(metric) updates the scheduler-best and bad-epoch counter
  (improvement means metric < best * (1 - 1e-4)), and reduces the learning
  rate to max(lr*0.8, 0) once num_bad_epochs exceeds the patience,
  provided the reduction exceeds eps.

A value of None for best_loss (and for the scheduler best) models the
initialization to float inf at line 160: any finite loss compares below it.
-/

namespace Aberation

namespace PaperParams

/-- EI resolution, PaperParams.EI_SIZE (line 29). -/
def EI_SIZE : Nat × Nat := (104, 104)

/-- Number of image channels, PaperParams.IN_CHANNELS (line 30). -/
def IN_CHANNELS : Nat := 3

/-- Weight of the SSIM term in formula 11, PaperParams.OMEGA = 0.8 (line 31). -/
def OMEGA : ℚ := 4/5

/-- Pixel dynamic range, PaperParams.DATA_RANGE = 1.0 (line 32). -/
def DATA_RANGE : ℚ := 1

/-- MSE reduction mode, PaperParams.MSE_REDUCTION (line 33). -/
def MSE_REDUCTION : String := "mean"

/-- Initial learning rate, PaperParams.LR = 5e-3 (line 34). -/
def LR : ℚ := 1/200

/-- Batch size, PaperParams.BATCH_SIZE (line 35). -/
def BATCH_SIZE : Nat := 16

/-- Fixed epoch budget, PaperParams.EPOCHS = 120 (line 36). -/
def EPOCHS : Nat := 120

end PaperParams

/-- A tensor, flattened: its shape and its flattened entries (idealized as
rationals). -/
structure Tensor where
  shape : List Nat
  data : List ℚ
deriving DecidableEq

/-- Well-formedness: the flattened data has exactly as many entries as the
shape prescribes. -/
def Tensor.wf (t : Tensor) : Prop := t.data.length = t.shape.prod

/-- nn.ReLU (line 53), applied pointwise: max(0, x). -/
def relu (t : Tensor) : Tensor :=
  { shape := t.shape, data := t.data.map (fun v => max 0 v) }

/-- AberrationCNN.get_features (lines 63-67):
relu(bn1(conv1 x)) then relu(bn2(conv2 -)).  The convolution and batch-norm
layers are abstract tensor functions; the final activation is the exact ReLU. -/
def AberrationCNN.get_features (conv1 bn1 conv2 bn2 : Tensor → Tensor)
    (x : Tensor) : Tensor :=
  relu (bn2 (conv2 (relu (bn1 (conv1 x)))))

/-- nn.MSELoss with reduction mean (line 98): the mean of the squared
elementwise differences of the two (equally long, once shapes agree)
flattened tensors. -/
def mseLoss (p t : Tensor) : ℚ :=
  (((p.data.zip t.data).map (fun xy => (xy.1 - xy.2)^2)).sum) / (p.data.length : ℚ)

/-- The ValueError message pytorch_msssim.ssim raises on mismatched inputs. -/
def shapeMismatchMsg : String := "Input images should have the same dimensions"

/-- The external pytorch_msssim.ssim call of line 113: it validates that the
two inputs have the same shape, raising ValueError otherwise, and then
returns the (batch-averaged) SSIM value, which is kept abstract as the
parameter ssimVal applied to the data_range and the two tensors. -/
def ssimFn (ssimVal : ℚ → Tensor → Tensor → ℚ) (dr : ℚ) (p t : Tensor) :
    Except String ℚ :=
  if p.shape = t.shape then Except.ok (ssimVal dr p t)
  else Except.error shapeMismatchMsg

/-- AberrationLoss.forward (lines 103-125): step 1 computes
1 - ssim(pred, target, data_range = PaperParams.DATA_RANGE) (which raises on
shape mismatch), step 2 the MSE, step 3 combines them with the fixed
module-level weight PaperParams.OMEGA.  omega and data_range are not
per-invocation parameters: forward takes only pred and target. -/
def AberrationLoss.forward (ssimVal : ℚ → Tensor → Tensor → ℚ)
    (pred target : Tensor) : Except String ℚ :=
  match ssimFn ssimVal PaperParams.DATA_RANGE pred target with
  | Except.error e => Except.error e
  | Except.ok s =>
      Except.ok (PaperParams.OMEGA * (1 - s) +
        (1 - PaperParams.OMEGA) * mseLoss pred target)

/-- Modelled from the spec (section 4.2): the contract
loss(pred, target, omega, data_range) = omega * (1 - SSIM(pred, target)) +
(1 - omega) * MSE(pred, target), with omega and data_range as explicit
parameters; used to compare the code's forward against the spec's words. -/
def specPerceptualLoss (ssimVal : ℚ → Tensor → Tensor → ℚ)
    (omega dr : ℚ) (p t : Tensor) : ℚ :=
  omega * (1 - ssimVal dr p t) + (1 - omega) * mseLoss p t

/-- State of torch.optim.lr_scheduler.ReduceLROnPlateau as constructed at
line 153: current learning rate, scheduler-best metric (None = inf),
consecutive bad-epoch count, cooldown counter (cooldown is 0 here, so the
counter stays 0). -/
structure SchedState where
  lr : ℚ
  best : Option ℚ
  num_bad_epochs : Nat
  cooldown_counter : Nat
deriving DecidableEq

/-- ReduceLROnPlateau.is_better for mode min, threshold_mode rel,
threshold 1e-4: current < best * (1 - 1e-4); an unset best (inf) is always
beaten. -/
def schedIsBetter (current : ℚ) : Option ℚ → Bool
  | none => true
  | some b => decide (current < b * (1 - 1/10000))

/-- ReduceLROnPlateau learning-rate reduction with factor 0.8, min_lr 0 and
eps 1e-8: new_lr = max(lr * 0.8, 0), applied only when the decrease
exceeds eps. -/
def reduceLR (lr : ℚ) : ℚ :=
  if lr - max (lr * (4/5)) 0 > 1/100000000 then max (lr * (4/5)) 0 else lr

/-- ReduceLROnPlateau.step(metric) for the line-153 configuration
(mode min, factor 0.8, patience 3, cooldown 0): update best / bad-epoch
count, apply the cooldown bookkeeping, and reduce the learning rate once
num_bad_epochs > 3, resetting the count. -/
def schedStep (s : SchedState) (metric : ℚ) : SchedState :=
  let s1 :=
    if schedIsBetter metric s.best then
      { s with best := some metric, num_bad_epochs := 0 }
    else
      { s with num_bad_epochs := s.num_bad_epochs + 1 }
  let s2 :=
    if 0 < s1.cooldown_counter then
      { s1 with cooldown_counter := s1.cooldown_counter - 1, num_bad_epochs := 0 }
    else s1
  if 3 < s2.num_bad_epochs then
    { s2 with lr := reduceLR s2.lr, cooldown_counter := 0, num_bad_epochs := 0 }
  else s2

/-- The bookkeeping state of the loop in correct_single_microlens:
best_loss (None = the initial float inf of line 160), the early-stop
counter (line 161), the best-so-far snapshot preliminary_ei (None =
not yet assigned), the loss history (line 159) and the scheduler state. -/
structure LoopState (T : Type) where
  best_loss : Option ℚ
  early_stop_counter : Nat
  preliminary : Option T
  loss_history : List ℚ
  sched : SchedState
deriving DecidableEq

/-- The improvement test of line 195: loss_val < best_loss - 1e-6, where an
unset best_loss (inf) is beaten by every finite loss. -/
def ltBest (loss : ℚ) : Option ℚ → Bool
  | none => true
  | some b => decide (loss < b - 1/1000000)

/-- The state at the start of the loop (lines 152-161): fresh scheduler at
learning rate PaperParams.LR, best_loss = inf, counter 0, no snapshot,
empty history. -/
def initState (T : Type) : LoopState T :=
  { best_loss := none, early_stop_counter := 0, preliminary := none,
    loss_history := [],
    sched := { lr := PaperParams.LR, best := none, num_bad_epochs := 0,
               cooldown_counter := 0 } }

/-- The break condition of line 210: best_loss < threshold or
early_stop_counter >= patience (an unset best_loss, being inf, is below no
threshold). -/
def bestLT (b : Option ℚ) (thr : ℚ) : Bool :=
  match b with
  | none => false
  | some v => decide (v < thr)

/-- The break condition of line 210 as a test on the whole state. -/
def shouldStop {T : Type} (thr : ℚ) (patience : Nat) (s : LoopState T) : Bool :=
  bestLT s.best_loss thr || decide (patience ≤ s.early_stop_counter)

/-- One epoch of the loop body (lines 163-207) on the bookkeeping state,
given the observed scalar loss and the post-optimizer-step subject value
snap: append the loss to the history (line 183); if the loss improves on
best_loss by more than 1e-6, update best_loss, reset the counter and store
snap as the snapshot (lines 195-198), else increment the counter
(line 200); then run the scheduler on the same just-observed loss
(line 207). -/
def epochStep {T : Type} (loss : ℚ) (snap : T) (s : LoopState T) : LoopState T :=
  if ltBest loss s.best_loss then
    { s with loss_history := s.loss_history ++ [loss],
             best_loss := some loss, early_stop_counter := 0,
             preliminary := some snap,
             sched := schedStep s.sched loss }
  else
    { s with loss_history := s.loss_history ++ [loss],
             early_stop_counter := s.early_stop_counter + 1,
             sched := schedStep s.sched loss }

/-- The for loop of lines 163-212, starting at a given epoch index with the
given remaining iteration budget: run one epoch (loss L epoch observed on
subject S epoch, subject stepped to S (epoch+1)), then break if the line-210
condition holds, else continue. -/
def runFrom {T : Type} (L : Nat → ℚ) (S : Nat → T) (thr : ℚ) (patience : Nat) :
    Nat → Nat → LoopState T → LoopState T
  | _, 0, s => s
  | epoch, fuel+1, s =>
      let s1 := epochStep (L epoch) (S (epoch+1)) s
      if shouldStop thr patience s1 then s1
      else runFrom L S thr patience (epoch+1) fuel s1

/-- The full loop of correct_single_microlens: epoch budget
PaperParams.EPOCHS, starting from the initial state. -/
def runState {T : Type} (L : Nat → ℚ) (S : Nat → T) (thr : ℚ) (patience : Nat) :
    LoopState T :=
  runFrom L S thr patience 0 PaperParams.EPOCHS (initState T)

/-- correct_single_microlens (lines 128-214) with its defaults
threshold = 1e-4, patience = 10: returns the pair
(preliminary_ei, loss_history) of the final bookkeeping state (line 214). -/
def correct_single_microlens {T : Type} (L : Nat → ℚ) (S : Nat → T)
    (thr : ℚ := 1/10000) (patience : Nat := 10) : Option T × List ℚ :=
  ((runState L S thr patience).preliminary, (runState L S thr patience).loss_history)

/-- The sequence of bookkeeping states of the unbroken iteration: j steps of
the loop body from state s, the first epoch having index epoch. -/
def iterFrom {T : Type} (L : Nat → ℚ) (S : Nat → T) (epoch : Nat)
    (s : LoopState T) : Nat → LoopState T
  | 0 => s
  | j+1 => epochStep (L (epoch+j)) (S (epoch+j+1)) (iterFrom L S epoch s j)

/-- The state after n full iterations of the loop body from the initial
state. -/
def iter {T : Type} (L : Nat → ℚ) (S : Nat → T) (n : Nat) : LoopState T :=
  iterFrom L S 0 (initState T) n

/-- The loop of lines 163-212 with the per-epoch loss computation made
fallible: at each epoch the loss computation (line 174, which calls
AberrationLoss.forward) may raise, and the loop body contains no handler,
so the error propagates out of the whole call at once. -/
def runFromE {T : Type} (lossComp : Nat → Except String ℚ) (S : Nat → T)
    (thr : ℚ) (patience : Nat) :
    Nat → Nat → LoopState T → Except String (LoopState T)
  | _, 0, s => Except.ok s
  | epoch, fuel+1, s =>
      match lossComp epoch with
      | Except.error e => Except.error e
      | Except.ok l =>
          let s1 := epochStep l (S (epoch+1)) s
          if shouldStop thr patience s1 then Except.ok s1
          else runFromE lossComp S thr patience (epoch+1) fuel s1

/-- The full fallible loop from the initial state with the fixed epoch
budget. -/
def runStateE {T : Type} (lossComp : Nat → Except String ℚ) (S : Nat → T)
    (thr : ℚ) (patience : Nat) : Except String (LoopState T) :=
  runFromE lossComp S thr patience 0 PaperParams.EPOCHS (initState T)

/-- Pointwise order on optional losses, None modelling inf. -/
def bestLE : Option ℚ → Option ℚ → Prop
  | _, none => True
  | none, some _ => False
  | some x, some y => x ≤ y

end Aberation

namespace Aberation

/-! Helper lemmas about the loop embedding. -/

theorem iterFrom_zero {T : Type} (L : Nat → ℚ) (S : Nat → T) (epoch : Nat)
    (s : LoopState T) : iterFrom L S epoch s 0 = s := rfl

theorem iterFrom_succ {T : Type} (L : Nat → ℚ) (S : Nat → T) (epoch : Nat)
    (s : LoopState T) (j : Nat) :
    iterFrom L S epoch s (j+1) =
      epochStep (L (epoch+j)) (S (epoch+j+1)) (iterFrom L S epoch s j) := rfl

theorem iterFrom_one {T : Type} (L : Nat → ℚ) (S : Nat → T) (epoch : Nat)
    (s : LoopState T) :
    iterFrom L S epoch s 1 = epochStep (L epoch) (S (epoch+1)) s := by
  rw [show (1:Nat) = 0+1 from rfl, iterFrom_succ, iterFrom_zero, Nat.add_zero]

theorem iterFrom_shift {T : Type} (L : Nat → ℚ) (S : Nat → T) (epoch : Nat)
    (s : LoopState T) :
    ∀ j, iterFrom L S (epoch+1) (epochStep (L epoch) (S (epoch+1)) s) j =
      iterFrom L S epoch s (j+1) := by
  intro j
  induction j with
  | zero => rw [iterFrom_zero, iterFrom_one]
  | succ j ih =>
      rw [iterFrom_succ L S (epoch+1), ih]
      have h1 : epoch + 1 + j = epoch + (j + 1) := by omega
      rw [h1]
      exact (iterFrom_succ L S epoch s (j+1)).symm

theorem iter_zero {T : Type} (L : Nat → ℚ) (S : Nat → T) : iter L S 0 = initState T := rfl

theorem iter_succ {T : Type} (L : Nat → ℚ) (S : Nat → T) (n : Nat) :
    iter L S (n+1) = epochStep (L n) (S (n+1)) (iter L S n) := by
  show iterFrom L S 0 (initState T) (n+1) = _
  rw [iterFrom_succ, Nat.zero_add]
  rfl

theorem runFrom_zero {T : Type} (L : Nat → ℚ) (S : Nat → T) (thr : ℚ) (pat : Nat)
    (epoch : Nat) (s : LoopState T) : runFrom L S thr pat epoch 0 s = s := rfl

theorem runFrom_succ {T : Type} (L : Nat → ℚ) (S : Nat → T) (thr : ℚ) (pat : Nat)
    (epoch fuel : Nat) (s : LoopState T) :
    runFrom L S thr pat epoch (fuel+1) s =
      (if shouldStop thr pat (epochStep (L epoch) (S (epoch+1)) s) then
        epochStep (L epoch) (S (epoch+1)) s
      else runFrom L S thr pat (epoch+1) fuel (epochStep (L epoch) (S (epoch+1)) s)) := rfl

theorem runFrom_all_false {T : Type} (L : Nat → ℚ) (S : Nat → T) (thr : ℚ) (pat : Nat) :
    ∀ (fuel epoch : Nat) (s : LoopState T),
      (∀ j, j < fuel → shouldStop thr pat (iterFrom L S epoch s (j+1)) = false) →
      runFrom L S thr pat epoch fuel s = iterFrom L S epoch s fuel := by
  intro fuel
  induction fuel with
  | zero => intro epoch s _; rfl
  | succ fuel ih =>
      intro epoch s h
      rw [runFrom_succ]
      have h0 : shouldStop thr pat (epochStep (L epoch) (S (epoch+1)) s) = false := by
        have h1 := h 0 (Nat.succ_pos fuel)
        rwa [iterFrom_one] at h1
      rw [h0]
      simp only [Bool.false_eq_true, if_false]
      rw [ih (epoch+1) (epochStep (L epoch) (S (epoch+1)) s) ?_, iterFrom_shift]
      intro j hj
      rw [iterFrom_shift]
      exact h (j+1) (Nat.succ_lt_succ hj)

theorem runFrom_stops_at {T : Type} (L : Nat → ℚ) (S : Nat → T) (thr : ℚ) (pat : Nat) :
    ∀ (fuel epoch : Nat) (s : LoopState T) (k : Nat),
      k < fuel →
      (∀ j, j < k → shouldStop thr pat (iterFrom L S epoch s (j+1)) = false) →
      shouldStop thr pat (iterFrom L S epoch s (k+1)) = true →
      runFrom L S thr pat epoch fuel s = iterFrom L S epoch s (k+1) := by
  intro fuel
  induction fuel with
  | zero => intro _ _ k hk; exact absurd hk (Nat.not_lt_zero k)
  | succ fuel ih =>
      intro epoch s k hk hprev hstop
      rw [runFrom_succ]
      cases k with
      | zero =>
          rw [iterFrom_one] at hstop
          rw [hstop]
          simp only [if_true]
          rw [iterFrom_one]
      | succ k =>
          have h0 : shouldStop thr pat (epochStep (L epoch) (S (epoch+1)) s) = false := by
            have h1 := hprev 0 (Nat.succ_pos k)
            rwa [iterFrom_one] at h1
          rw [h0]
          simp only [Bool.false_eq_true, if_false]
          have hmain := ih (epoch+1) (epochStep (L epoch) (S (epoch+1)) s) k
            (Nat.lt_of_succ_lt_succ hk)
            (fun j hj => by
              rw [iterFrom_shift]
              exact hprev (j+1) (Nat.succ_lt_succ hj))
            (by rw [iterFrom_shift]; exact hstop)
          rw [hmain, iterFrom_shift]

theorem runFrom_exists_iter {T : Type} (L : Nat → ℚ) (S : Nat → T) (thr : ℚ) (pat : Nat) :
    ∀ (fuel epoch : Nat) (s : LoopState T),
      ∃ m, m ≤ fuel ∧ (1 ≤ fuel → 1 ≤ m) ∧
        runFrom L S thr pat epoch fuel s = iterFrom L S epoch s m := by
  intro fuel
  induction fuel with
  | zero => intro epoch s; exact ⟨0, Nat.le_refl 0, by omega, rfl⟩
  | succ fuel ih =>
      intro epoch s
      rw [runFrom_succ]
      by_cases h : shouldStop thr pat (epochStep (L epoch) (S (epoch+1)) s) = true
      · refine ⟨1, by omega, by omega, ?_⟩
        rw [h]
        simp only [if_true]
        rw [iterFrom_one]
      · have h0 : shouldStop thr pat (epochStep (L epoch) (S (epoch+1)) s) = false :=
          Bool.not_eq_true _ ▸ eq_false_of_ne_true h
        obtain ⟨m, hm, _, heq⟩ := ih (epoch+1) (epochStep (L epoch) (S (epoch+1)) s)
        refine ⟨m+1, by omega, by omega, ?_⟩
        rw [h0]
        simp only [Bool.false_eq_true, if_false]
        rw [heq, iterFrom_shift]

theorem runState_eq_iter {T : Type} (L : Nat → ℚ) (S : Nat → T) (thr : ℚ) (pat : Nat) :
    ∃ n, 1 ≤ n ∧ n ≤ PaperParams.EPOCHS ∧ runState L S thr pat = iter L S n := by
  obtain ⟨m, hm, h1, heq⟩ := runFrom_exists_iter L S thr pat PaperParams.EPOCHS 0 (initState T)
  exact ⟨m, h1 (by decide), hm, heq⟩

end Aberation

namespace Aberation

theorem epochStep_improve_fields {T : Type} (l : ℚ) (sn : T) (s : LoopState T)
    (h : ltBest l s.best_loss = true) :
    (epochStep l sn s).best_loss = some l ∧
    (epochStep l sn s).early_stop_counter = 0 ∧
    (epochStep l sn s).preliminary = some sn ∧
    (epochStep l sn s).loss_history = s.loss_history ++ [l] ∧
    (epochStep l sn s).sched = schedStep s.sched l := by
  simp [epochStep, h]

theorem epochStep_no_improve_fields {T : Type} (l : ℚ) (sn : T) (s : LoopState T)
    (h : ltBest l s.best_loss = false) :
    (epochStep l sn s).best_loss = s.best_loss ∧
    (epochStep l sn s).early_stop_counter = s.early_stop_counter + 1 ∧
    (epochStep l sn s).preliminary = s.preliminary ∧
    (epochStep l sn s).loss_history = s.loss_history ++ [l] ∧
    (epochStep l sn s).sched = schedStep s.sched l := by
  simp [epochStep, h]

theorem epochStep_history {T : Type} (l : ℚ) (sn : T) (s : LoopState T) :
    (epochStep l sn s).loss_history = s.loss_history ++ [l] := by
  by_cases h : ltBest l s.best_loss = true
  · exact (epochStep_improve_fields l sn s h).2.2.2.1
  · exact (epochStep_no_improve_fields l sn s (eq_false_of_ne_true h)).2.2.2.1

theorem epochStep_sched {T : Type} (l : ℚ) (sn : T) (s : LoopState T) :
    (epochStep l sn s).sched = schedStep s.sched l := by
  by_cases h : ltBest l s.best_loss = true
  · exact (epochStep_improve_fields l sn s h).2.2.2.2
  · exact (epochStep_no_improve_fields l sn s (eq_false_of_ne_true h)).2.2.2.2

theorem bestLE_refl (b : Option ℚ) : bestLE b b := by
  cases b <;> simp [bestLE]

theorem epochStep_best_le {T : Type} (l : ℚ) (sn : T) (s : LoopState T) :
    bestLE (epochStep l sn s).best_loss s.best_loss := by
  by_cases h : ltBest l s.best_loss = true
  · rw [(epochStep_improve_fields l sn s h).1]
    cases hb : s.best_loss with
    | none => simp [bestLE]
    | some b =>
        rw [hb] at h
        have hlt : l < b - 1/1000000 := of_decide_eq_true h
        show l ≤ b
        linarith
  · rw [(epochStep_no_improve_fields l sn s (eq_false_of_ne_true h)).1]
    exact bestLE_refl s.best_loss

theorem iterFrom_history_len {T : Type} (L : Nat → ℚ) (S : Nat → T) (epoch : Nat) :
    ∀ (n : Nat) (s : LoopState T),
      (iterFrom L S epoch s n).loss_history.length = s.loss_history.length + n := by
  intro n
  induction n with
  | zero => intro s; rfl
  | succ n ih =>
      intro s
      rw [iterFrom_succ, epochStep_history, List.length_append]
      simp [ih s]
      omega

theorem iter_history_len {T : Type} (L : Nat → ℚ) (S : Nat → T) (n : Nat) :
    (iter L S n).loss_history.length = n := by
  show (iterFrom L S 0 (initState T) n).loss_history.length = n
  rw [iterFrom_history_len]
  simp [initState]

theorem iter_invariant {T : Type} (L : Nat → ℚ) (S : Nat → T) :
    ∀ k, 1 ≤ k → ∃ j, j < k ∧ (iter L S k).best_loss = some (L j) ∧
      (iter L S k).preliminary = some (S (j+1)) ∧
      ∀ i, i < k → L j ≤ L i + 1/1000000 := by
  intro k
  induction k with
  | zero => intro h; exact absurd h (by omega)
  | succ k ih =>
      intro _
      rcases Nat.eq_zero_or_pos k with h0 | hpos
      · subst h0
        rw [iter_succ, iter_zero]
        have himp : ltBest (L 0) (initState T).best_loss = true := rfl
        refine ⟨0, by omega, ?_, ?_, ?_⟩
        · simp [epochStep, himp]
        · simp [epochStep, himp]
        · intro i hi
          have hi0 : i = 0 := by omega
          subst hi0
          have hpos6 : (0:ℚ) < 1/1000000 := by norm_num
          linarith
      · obtain ⟨j, hj, hbest, hprel, hbound⟩ := ih hpos
        rw [iter_succ]
        by_cases himp : ltBest (L k) ((iter L S k).best_loss) = true
        · have hlt : L k < L j - 1/1000000 := by
            rw [hbest] at himp
            exact of_decide_eq_true himp
          refine ⟨k, by omega, ?_, ?_, ?_⟩
          · simp [epochStep, himp]
          · simp [epochStep, himp]
          · intro i hi
            rcases (by omega : i < k ∨ i = k) with hik | hik
            · have hb := hbound i hik
              linarith
            · subst hik
              have hpos6 : (0:ℚ) < 1/1000000 := by norm_num
              linarith
        · have hf : ltBest (L k) ((iter L S k).best_loss) = false := eq_false_of_ne_true himp
          refine ⟨j, by omega, ?_, ?_, ?_⟩
          · rw [(epochStep_no_improve_fields _ _ _ hf).1]
            exact hbest
          · rw [(epochStep_no_improve_fields _ _ _ hf).2.2.1]
            exact hprel
          · intro i hi
            rcases (by omega : i < k ∨ i = k) with hik | hik
            · exact hbound i hik
            · subst hik
              rw [hbest] at hf
              have hnlt := of_decide_eq_false hf
              linarith

end Aberation

namespace Aberation

theorem schedStep_lr (s : SchedState) (m : ℚ) (hcd : s.cooldown_counter = 0) :
    (schedStep s m).lr =
      (if 3 < (if schedIsBetter m s.best then 0 else s.num_bad_epochs + 1) then
        reduceLR s.lr
      else s.lr) := by
  by_cases h : schedIsBetter m s.best = true
  · simp [schedStep, h, hcd]
  · have h0 : schedIsBetter m s.best = false := eq_false_of_ne_true h
    simp only [schedStep, h0, hcd]
    by_cases h3 : 3 < s.num_bad_epochs + 1 <;> simp [h3]

theorem reduceLR_mul (lr : ℚ) (h : 1/20000000 < lr) : reduceLR lr = (4/5) * lr := by
  unfold reduceLR
  have hpos : (0:ℚ) < lr := by linarith
  have h0 : max (lr * (4/5)) 0 = lr * (4/5) := by
    apply max_eq_left
    nlinarith
  rw [h0, if_pos (by linarith)]
  ring

theorem epochStep_preliminary_isSome {T : Type} (l : ℚ) (sn : T) (s : LoopState T)
    (h : s.preliminary.isSome = true) :
    (epochStep l sn s).preliminary.isSome = true := by
  by_cases hi : ltBest l s.best_loss = true
  · rw [(epochStep_improve_fields l sn s hi).2.2.1]
    rfl
  · rw [(epochStep_no_improve_fields l sn s (eq_false_of_ne_true hi)).2.2.1]
    exact h

theorem mem_zip_self (l : List ℚ) : ∀ xy ∈ l.zip l, xy.1 = xy.2 := by
  induction l with
  | nil => intro xy h; simp at h
  | cons a l ih =>
      intro xy h
      rw [List.zip_cons_cons, List.mem_cons] at h
      rcases h with rfl | h
      · rfl
      · exact ih xy h

theorem sumSq_nonneg (l : List (ℚ × ℚ)) :
    0 ≤ (l.map (fun xy => (xy.1 - xy.2)^2)).sum := by
  apply List.sum_nonneg
  intro x hx
  rw [List.mem_map] at hx
  obtain ⟨xy, _, rfl⟩ := hx
  positivity

theorem sumSq_eq_zero_iff (l : List (ℚ × ℚ)) :
    ((l.map (fun xy => (xy.1 - xy.2)^2)).sum = 0) ↔ ∀ xy ∈ l, xy.1 = xy.2 := by
  induction l with
  | nil => simp
  | cons a l ih =>
      rw [List.map_cons, List.sum_cons,
        add_eq_zero_iff_of_nonneg (by positivity) (sumSq_nonneg l)]
      constructor
      · rintro ⟨h1, h2⟩
        intro xy hxy
        rw [List.mem_cons] at hxy
        rcases hxy with rfl | hxy
        · have hz : xy.1 - xy.2 = 0 := by
            have := sq_eq_zero_iff.mp h1
            exact this
          linarith
        · exact ih.mp h2 xy hxy
      · intro h
        refine ⟨?_, ih.mpr (fun xy hxy => h xy (List.mem_cons_of_mem a hxy))⟩
        have ha : a.1 = a.2 := h a (List.mem_cons_self a l)
        rw [ha]
        ring

theorem zip_eq_of_forall :
    ∀ (l1 l2 : List ℚ), l1.length = l2.length →
      (∀ xy ∈ l1.zip l2, xy.1 = xy.2) → l1 = l2 := by
  intro l1
  induction l1 with
  | nil =>
      intro l2 hlen _
      cases l2 with
      | nil => rfl
      | cons b l2 => simp at hlen
  | cons a l ih =>
      intro l2 hlen h
      cases l2 with
      | nil => simp at hlen
      | cons b l2 =>
          have hab : a = b := h (a, b) (by rw [List.zip_cons_cons]; exact List.mem_cons_self _ _)
          have htl : l = l2 := by
            apply ih l2 (by simpa using hlen)
            intro xy hxy
            exact h xy (by rw [List.zip_cons_cons]; exact List.mem_cons_of_mem _ hxy)
          rw [hab, htl]

theorem mseLoss_nonneg (p t : Tensor) : 0 ≤ mseLoss p t := by
  unfold mseLoss
  apply div_nonneg (sumSq_nonneg _)
  exact Nat.cast_nonneg _

theorem mseLoss_self (x : Tensor) : mseLoss x x = 0 := by
  unfold mseLoss
  rw [(sumSq_eq_zero_iff _).mpr (mem_zip_self x.data)]
  exact zero_div _

theorem mseLoss_eq_zero_iff (p t : Tensor) (hlen : p.data.length = t.data.length) :
    mseLoss p t = 0 ↔ p.data = t.data := by
  unfold mseLoss
  rcases eq_or_ne p.data.length 0 with h0 | h0
  · have hp : p.data = [] := List.length_eq_zero.mp h0
    have ht : t.data = [] := List.length_eq_zero.mp (by omega)
    simp [hp, ht]
  · constructor
    · intro h
      rw [div_eq_zero_iff] at h
      rcases h with h | h
      · exact zip_eq_of_forall _ _ hlen ((sumSq_eq_zero_iff _).mp h)
      · exact absurd (Nat.cast_eq_zero.mp h) h0
    · intro h
      rw [h, (sumSq_eq_zero_iff _).mpr (mem_zip_self t.data)]
      exact zero_div _

theorem forward_ok (ssimVal : ℚ → Tensor → Tensor → ℚ) (pred target : Tensor)
    (h : pred.shape = target.shape) :
    AberrationLoss.forward ssimVal pred target =
      Except.ok (PaperParams.OMEGA * (1 - ssimVal PaperParams.DATA_RANGE pred target) +
        (1 - PaperParams.OMEGA) * mseLoss pred target) := by
  simp [AberrationLoss.forward, ssimFn, h]

theorem forward_err (ssimVal : ℚ → Tensor → Tensor → ℚ) (pred target : Tensor)
    (h : pred.shape ≠ target.shape) :
    AberrationLoss.forward ssimVal pred target = Except.error shapeMismatchMsg := by
  simp [AberrationLoss.forward, ssimFn, h]

theorem runFromE_succ {T : Type} (lossComp : Nat → Except String ℚ) (S : Nat → T)
    (thr : ℚ) (pat : Nat) (epoch fuel : Nat) (s : LoopState T) :
    runFromE lossComp S thr pat epoch (fuel+1) s =
      (match lossComp epoch with
      | Except.error e => Except.error e
      | Except.ok l =>
          if shouldStop thr pat (epochStep l (S (epoch+1)) s) then
            Except.ok (epochStep l (S (epoch+1)) s)
          else runFromE lossComp S thr pat (epoch+1) fuel (epochStep l (S (epoch+1)) s)) := rfl

end Aberation

namespace Aberation

/-- C3: in every iteration of correct_single_microlens, if the just-computed
loss satisfies loss < best_loss - 1e-6 then best_loss is set to that loss, the
non-improvement counter is reset to 0 and a snapshot of the subject tensor is
stored; otherwise the counter is incremented by 1 and best_loss and the
snapshot are unchanged; consequently the per-iteration trace of best_loss
values is non-increasing (None modelling the initial infinity). -/
theorem C3_improvement_bookkeeping (T : Type) :
    (∀ (l : ℚ) (sn : T) (s : LoopState T), ltBest l s.best_loss = true →
      (epochStep l sn s).best_loss = some l ∧
      (epochStep l sn s).early_stop_counter = 0 ∧
      (epochStep l sn s).preliminary = some sn) ∧
    (∀ (l : ℚ) (sn : T) (s : LoopState T), ltBest l s.best_loss = false →
      (epochStep l sn s).best_loss = s.best_loss ∧
      (epochStep l sn s).early_stop_counter = s.early_stop_counter + 1 ∧
      (epochStep l sn s).preliminary = s.preliminary) ∧
    (∀ (l b : ℚ), ltBest l (some b) = true ↔ l < b - 1/1000000) ∧
    (∀ (L : Nat → ℚ) (S : Nat → T) (k : Nat),
      bestLE ((iter L S (k+1)).best_loss) ((iter L S k).best_loss)) := by
  refine ⟨?_, ?_, ?_, ?_⟩
  · intro l sn s h
    exact ⟨(epochStep_improve_fields l sn s h).1, (epochStep_improve_fields l sn s h).2.1,
      (epochStep_improve_fields l sn s h).2.2.1⟩
  · intro l sn s h
    exact ⟨(epochStep_no_improve_fields l sn s h).1, (epochStep_no_improve_fields l sn s h).2.1,
      (epochStep_no_improve_fields l sn s h).2.2.1⟩
  · intro l b
    simp [ltBest]
  · intro L S k
    rw [iter_succ]
    exact epochStep_best_le _ _ _

/-- C3 witness: a concrete improving step (loss 0 against the initial
infinite best) updates best_loss, resets the counter and stores the
snapshot. -/
theorem C3_improvement_bookkeeping_witness :
    (epochStep (0:ℚ) (37:Nat) (initState Nat)).best_loss = some 0 ∧
    (epochStep (0:ℚ) (37:Nat) (initState Nat)).early_stop_counter = 0 ∧
    (epochStep (0:ℚ) (37:Nat) (initState Nat)).preliminary = some 37 :=
  (C3_improvement_bookkeeping Nat).1 0 37 (initState Nat) rfl

/-- C4: AberrationLoss.forward(pred, target) equals
omega * (1 - SSIM(pred, target)) + (1 - omega) * MSE(pred, target) with omega
the module-level constant PaperParams.OMEGA = 0.8 and data_range
PaperParams.DATA_RANGE = 1.0; omega is not a per-invocation parameter
(forward takes only pred and target, and always uses the constant). -/
theorem C4_loss_formula :
    ∀ (ssimVal : ℚ → Tensor → Tensor → ℚ) (pred target : Tensor),
      pred.shape = target.shape →
      AberrationLoss.forward ssimVal pred target =
        Except.ok (specPerceptualLoss ssimVal PaperParams.OMEGA PaperParams.DATA_RANGE
          pred target) ∧
      PaperParams.OMEGA = 4/5 ∧ PaperParams.DATA_RANGE = 1 := by
  intro ssimVal pred target h
  refine ⟨?_, rfl, rfl⟩
  rw [forward_ok ssimVal pred target h]
  rfl

/-- C4 witness: the formula holds at a concrete SSIM oracle and concrete
equal-shape tensors. -/
theorem C4_loss_formula_witness :
    AberrationLoss.forward (fun _ _ _ => 1/2) ⟨[1], [0]⟩ ⟨[1], [0]⟩ =
      Except.ok (specPerceptualLoss (fun _ _ _ => 1/2) PaperParams.OMEGA
        PaperParams.DATA_RANGE ⟨[1], [0]⟩ ⟨[1], [0]⟩) :=
  (C4_loss_formula (fun _ _ _ => 1/2) ⟨[1], [0]⟩ ⟨[1], [0]⟩ rfl).1

/-- C6: the very first iteration of correct_single_microlens always counts as
an improvement (best_loss starts as infinity, modelled by None, which every
finite loss beats), so a valid snapshot exists right after iteration 1 and
the preliminary snapshot returned by the full loop is always assigned. -/
theorem C6_first_iteration_snapshot (T : Type) :
    (∀ l : ℚ, ltBest l none = true) ∧
    (∀ (L : Nat → ℚ) (S : Nat → T),
      (epochStep (L 0) (S 1) (initState T)).preliminary = some (S 1)) ∧
    (∀ (L : Nat → ℚ) (S : Nat → T) (thr : ℚ) (pat : Nat),
      ((runState L S thr pat).preliminary).isSome = true) := by
  refine ⟨fun l => rfl, ?_, ?_⟩
  · intro L S
    exact (epochStep_improve_fields (L 0) (S 1) (initState T) rfl).2.2.1
  · intro L S thr pat
    obtain ⟨n, hn1, _, heq⟩ := runState_eq_iter L S thr pat
    rw [heq]
    obtain ⟨j, _, _, hprel, _⟩ := iter_invariant L S n hn1
    rw [hprel]
    rfl

/-- C8: the loop of correct_single_microlens terminates after at most
PaperParams.EPOCHS = 120 iterations, each iteration appends exactly one
scalar to loss_history, and the final state is the state after exactly n
full iterations for some 1 <= n <= 120 with loss_history of length exactly
n (so the history has one entry per executed iteration, the stopping one
included). -/
theorem C8_termination_history (T : Type) :
    (∀ (L : Nat → ℚ) (S : Nat → T) (thr : ℚ) (pat : Nat),
      (runState L S thr pat).loss_history.length ≤ PaperParams.EPOCHS) ∧
    (∀ (l : ℚ) (sn : T) (s : LoopState T),
      (epochStep l sn s).loss_history = s.loss_history ++ [l]) ∧
    (∀ (L : Nat → ℚ) (S : Nat → T) (thr : ℚ) (pat : Nat),
      ∃ n, 1 ≤ n ∧ n ≤ PaperParams.EPOCHS ∧ runState L S thr pat = iter L S n ∧
        (runState L S thr pat).loss_history.length = n) := by
  have key : ∀ (L : Nat → ℚ) (S : Nat → T) (thr : ℚ) (pat : Nat),
      ∃ n, 1 ≤ n ∧ n ≤ PaperParams.EPOCHS ∧ runState L S thr pat = iter L S n ∧
        (runState L S thr pat).loss_history.length = n := by
    intro L S thr pat
    obtain ⟨n, hn1, hn2, heq⟩ := runState_eq_iter L S thr pat
    exact ⟨n, hn1, hn2, heq, by rw [heq, iter_history_len]⟩
  refine ⟨?_, epochStep_history, key⟩
  intro L S thr pat
  obtain ⟨n, _, hn2, _, hlen⟩ := key L S thr pat
  omega

/-- C9: mismatched shapes make the loss computation fail fast (the error is
raised by the SSIM call inside AberrationLoss.forward), and an error raised
by the per-epoch loss computation propagates out of the loop of
correct_single_microlens unchanged: there is no handler and no retry. -/
theorem C9_shape_mismatch_propagation (T : Type) :
    (∀ (ssimVal : ℚ → Tensor → Tensor → ℚ) (pred target : Tensor),
      pred.shape ≠ target.shape →
      AberrationLoss.forward ssimVal pred target = Except.error shapeMismatchMsg) ∧
    (∀ (lossComp : Nat → Except String ℚ) (S : Nat → T) (thr : ℚ) (pat : Nat)
        (fuel epoch : Nat) (s : LoopState T) (e : String),
      lossComp epoch = Except.error e →
      runFromE lossComp S thr pat epoch (fuel+1) s = Except.error e) ∧
    (∀ (lossComp : Nat → Except String ℚ) (S : Nat → T) (thr : ℚ) (pat : Nat)
        (e : String),
      lossComp 0 = Except.error e →
      runStateE lossComp S thr pat = Except.error e) := by
  have hstep : ∀ (lossComp : Nat → Except String ℚ) (S : Nat → T) (thr : ℚ) (pat : Nat)
      (fuel epoch : Nat) (s : LoopState T) (e : String),
      lossComp epoch = Except.error e →
      runFromE lossComp S thr pat epoch (fuel+1) s = Except.error e := by
    intro lossComp S thr pat fuel epoch s e h
    rw [runFromE_succ, h]
  refine ⟨forward_err, hstep, ?_⟩
  intro lossComp S thr pat e h
  show runFromE lossComp S thr pat 0 PaperParams.EPOCHS (initState T) = Except.error e
  have h120 : PaperParams.EPOCHS = 119 + 1 := rfl
  rw [h120]
  exact hstep lossComp S thr pat 119 0 (initState T) e h

/-- C9 witness: a concrete shape mismatch errors out of forward, and a
concrete failing loss computation at epoch 0 errors out of the whole loop. -/
theorem C9_shape_mismatch_propagation_witness :
    AberrationLoss.forward (fun _ _ _ => 0) ⟨[1], [0]⟩ ⟨[2], [0, 0]⟩ =
      Except.error shapeMismatchMsg ∧
    runStateE (fun _ => Except.error "boom") (fun n : Nat => n) (1/10000) 10 =
      Except.error "boom" :=
  ⟨(C9_shape_mismatch_propagation Nat).1 (fun _ _ _ => 0) ⟨[1], [0]⟩ ⟨[2], [0, 0]⟩
      (by decide),
    (C9_shape_mismatch_propagation Nat).2.2 (fun _ => Except.error "boom")
      (fun n : Nat => n) (1/10000) 10 "boom" rfl⟩

/-- C10: every entry of AberrationCNN.get_features(x) is non-negative,
because the feature output passes through a final ReLU activation. -/
theorem C10_features_nonneg :
    ∀ (conv1 bn1 conv2 bn2 : Tensor → Tensor) (x : Tensor) (v : ℚ),
      v ∈ (AberrationCNN.get_features conv1 bn1 conv2 bn2 x).data → 0 ≤ v := by
  intro conv1 bn1 conv2 bn2 x v hv
  simp only [AberrationCNN.get_features, relu, List.mem_map] at hv
  obtain ⟨w, _, rfl⟩ := hv
  exact le_max_left 0 w

/-- C10 witness: a concrete feature entry of a concrete input is
non-negative. -/
theorem C10_features_nonneg_witness : (0:ℚ) ≤ 0 :=
  C10_features_nonneg id id id id ⟨[1], [0]⟩ 0
    (by simp [AberrationCNN.get_features, relu])

end Aberation

namespace Aberation

/-- C2: the loop of correct_single_microlens stops early at the end of an
epoch exactly when best_loss < threshold or early_stop_counter >= patience
holds at that point (first conjunct: it stops at the end of the first epoch
where the condition holds; second: if the condition never holds it runs the
full budget of PaperParams.EPOCHS = 120 epochs; third: the stop test is
exactly the disjunction; fourth: threshold satisfied after iteration 1
stops the loop immediately, independent of the counter). -/
theorem C2_stop_condition (T : Type) :
    (∀ (L : Nat → ℚ) (S : Nat → T) (thr : ℚ) (pat : Nat) (k : Nat),
      k < PaperParams.EPOCHS →
      (∀ j, j < k → shouldStop thr pat (iter L S (j+1)) = false) →
      shouldStop thr pat (iter L S (k+1)) = true →
      runState L S thr pat = iter L S (k+1)) ∧
    (∀ (L : Nat → ℚ) (S : Nat → T) (thr : ℚ) (pat : Nat),
      (∀ j, j < PaperParams.EPOCHS → shouldStop thr pat (iter L S (j+1)) = false) →
      runState L S thr pat = iter L S PaperParams.EPOCHS) ∧
    (∀ (thr : ℚ) (pat : Nat) (s : LoopState T),
      shouldStop thr pat s = true ↔
        ((∃ b, s.best_loss = some b ∧ b < thr) ∨ pat ≤ s.early_stop_counter)) ∧
    (∀ (L : Nat → ℚ) (S : Nat → T) (thr : ℚ) (pat : Nat),
      bestLT (iter L S 1).best_loss thr = true →
      runState L S thr pat = iter L S 1) := by
  have main1 : ∀ (L : Nat → ℚ) (S : Nat → T) (thr : ℚ) (pat : Nat) (k : Nat),
      k < PaperParams.EPOCHS →
      (∀ j, j < k → shouldStop thr pat (iter L S (j+1)) = false) →
      shouldStop thr pat (iter L S (k+1)) = true →
      runState L S thr pat = iter L S (k+1) := by
    intro L S thr pat k hk hprev hstop
    exact runFrom_stops_at L S thr pat PaperParams.EPOCHS 0 (initState T) k hk hprev hstop
  refine ⟨main1, ?_, ?_, ?_⟩
  · intro L S thr pat h
    exact runFrom_all_false L S thr pat PaperParams.EPOCHS 0 (initState T) h
  · intro thr pat s
    cases hb : s.best_loss with
    | none => simp [shouldStop, bestLT, hb]
    | some v => simp [shouldStop, bestLT, hb]
  · intro L S thr pat h
    have h0 : shouldStop thr pat (iter L S (0+1)) = true := by
      rw [Nat.zero_add]
      simp [shouldStop, h]
    exact main1 L S thr pat 0 (by norm_num [PaperParams.EPOCHS])
      (fun j hj => absurd hj (Nat.not_lt_zero j)) h0

/-- C2 witness: with losses 1 then 1e-5, threshold 1e-4 and patience 10, the
threshold is reached at the end of iteration 2 and the loop stops there. -/
theorem C2_stop_condition_witness :
    runState (fun k => if k = 0 then (1:ℚ) else 1/100000) (fun n : Nat => n)
        (1/10000) 10 =
      iter (fun k => if k = 0 then (1:ℚ) else 1/100000) (fun n : Nat => n) 2 := by
  have e1 : iter (fun k => if k = 0 then (1:ℚ) else 1/100000) (fun n : Nat => n) 1 =
      { best_loss := some 1, early_stop_counter := 0, preliminary := some 1,
        loss_history := [1],
        sched := { lr := 1/200, best := some 1, num_bad_epochs := 0,
                   cooldown_counter := 0 } } := by
    have h : iter (fun k => if k = 0 then (1:ℚ) else 1/100000) (fun n : Nat => n) 1 =
        epochStep 1 1 (initState Nat) := rfl
    rw [h]
    norm_num [epochStep, ltBest, initState, schedStep, schedIsBetter, PaperParams.LR]
  have e2 : iter (fun k => if k = 0 then (1:ℚ) else 1/100000) (fun n : Nat => n) 2 =
      { best_loss := some (1/100000), early_stop_counter := 0, preliminary := some 2,
        loss_history := [1, 1/100000],
        sched := { lr := 1/200, best := some (1/100000), num_bad_epochs := 0,
                   cooldown_counter := 0 } } := by
    have h : iter (fun k => if k = 0 then (1:ℚ) else 1/100000) (fun n : Nat => n) 2 =
        epochStep (1/100000) 2
          (iter (fun k => if k = 0 then (1:ℚ) else 1/100000) (fun n : Nat => n) 1) := rfl
    rw [h, e1]
    norm_num [epochStep, ltBest, schedStep, schedIsBetter]
  refine (C2_stop_condition Nat).1 _ _ _ _ 1 (by norm_num [PaperParams.EPOCHS]) ?_ ?_
  · intro j hj
    have hj0 : j = 0 := by omega
    subst hj0
    rw [show (0:Nat)+1 = 1 from rfl, e1]
    norm_num [shouldStop, bestLT]
  · rw [show (1:Nat)+1 = 2 from rfl, e2]
    norm_num [shouldStop, bestLT]

/-- C7: for any SSIM implementation that is bounded above by 1 and equals 1
on identical inputs (both hold for the reference SSIM), AberrationLoss.forward
is zero on identical tensors, and on equally-shaped well-formed tensors it
returns a non-negative value that is zero exactly when the tensors are
pixel-identical. -/
theorem C7_loss_nonneg_zero_iff :
    ∀ (ssimVal : ℚ → Tensor → Tensor → ℚ),
      (∀ p t, ssimVal PaperParams.DATA_RANGE p t ≤ 1) →
      (∀ p, ssimVal PaperParams.DATA_RANGE p p = 1) →
      (∀ x : Tensor, AberrationLoss.forward ssimVal x x = Except.ok 0) ∧
      (∀ pred target : Tensor, pred.shape = target.shape →
        pred.wf → target.wf →
        ∃ v, AberrationLoss.forward ssimVal pred target = Except.ok v ∧ 0 ≤ v ∧
          (v = 0 ↔ pred = target)) := by
  intro ssimVal hle hrefl
  constructor
  · intro x
    rw [forward_ok ssimVal x x rfl, hrefl x, mseLoss_self x]
    norm_num
  · intro pred target hsh hwp hwt
    have hlen : pred.data.length = target.data.length := by
      rw [Tensor.wf] at hwp hwt
      rw [hsh] at hwp
      omega
    refine ⟨_, forward_ok ssimVal pred target hsh, ?_, ?_, ?_⟩
    · have h1 : ssimVal PaperParams.DATA_RANGE pred target ≤ 1 := hle pred target
      have h2 : 0 ≤ mseLoss pred target := mseLoss_nonneg pred target
      simp only [PaperParams.OMEGA]
      nlinarith
    · intro hv
      have h1 : ssimVal PaperParams.DATA_RANGE pred target ≤ 1 := hle pred target
      have h2 : 0 ≤ mseLoss pred target := mseLoss_nonneg pred target
      have hm : mseLoss pred target = 0 := by
        simp only [PaperParams.OMEGA] at hv
        nlinarith
      have hdata := (mseLoss_eq_zero_iff pred target hlen).mp hm
      cases pred with
      | mk ps pd =>
          cases target with
          | mk ts td =>
              dsimp at hsh hdata
              rw [hsh, hdata]
    · intro he
      subst he
      rw [hrefl pred, mseLoss_self pred]
      norm_num

/-- C7 witness: the identity case at a concrete tensor, with a concrete SSIM
oracle satisfying the two hypotheses. -/
theorem C7_loss_nonneg_zero_iff_witness :
    AberrationLoss.forward (fun _ p t => if p = t then 1 else 0)
        ⟨[1], [1/2]⟩ ⟨[1], [1/2]⟩ = Except.ok 0 :=
  (C7_loss_nonneg_zero_iff (fun _ p t => if p = t then 1 else 0)
    (fun p t => by by_cases h : p = t <;> simp [h])
    (fun p => by simp)).1 ⟨[1], [1/2]⟩

end Aberation

namespace Aberation

/-- C1 counterexample: with threshold 2 the run stops after one iteration;
the only loss it ever computed (loss_history = [1]) was evaluated on the
subject value S 0 = 0 (the subject at the start of epoch 0), but the stored
snapshot is some (S 1) = some 1, the subject value after optimizer.step()
of that epoch, because line 198 runs after line 179.  Hence the snapshot
does not hold the pixel values at which the lowest loss seen to date was
computed, refuting the claim as stated. -/
theorem C1_snapshot_counterexample :
    (runState (fun _ => (1:ℚ)) (fun n : Nat => n) 2 10).loss_history = [1] ∧
    (runState (fun _ => (1:ℚ)) (fun n : Nat => n) 2 10).preliminary = some 1 ∧
    (runState (fun _ => (1:ℚ)) (fun n : Nat => n) 2 10).preliminary ≠ some 0 :=
  ⟨by decide, by decide, by decide⟩

/-- C1 amended: the best-so-far snapshot is overwritten only when a loss
better than best_loss by more than epsilon = 1e-6 is observed, and at every
point after the first iteration it holds the post-optimizer-step subject
tensor S (j+1) of the epoch j whose loss is the current best_loss; that
best_loss is an observed loss which no loss seen so far beats by more than
epsilon (the lowest loss seen to date, up to epsilon), and the snapshot is
not necessarily the most recent subject tensor — but it is the subject
value from after the best epoch's optimizer step, not the pixel values at
which that loss was computed. -/
theorem C1_best_snapshot_invariant (T : Type) :
    (∀ (l : ℚ) (sn : T) (s : LoopState T), ltBest l s.best_loss = false →
      (epochStep l sn s).preliminary = s.preliminary ∧
      (epochStep l sn s).best_loss = s.best_loss) ∧
    (∀ (L : Nat → ℚ) (S : Nat → T) (k : Nat), 1 ≤ k →
      ∃ j, j < k ∧ (iter L S k).best_loss = some (L j) ∧
        (iter L S k).preliminary = some (S (j+1)) ∧
        ∀ i, i < k → L j ≤ L i + 1/1000000) := by
  refine ⟨?_, fun L S => iter_invariant L S⟩
  intro l sn s h
  exact ⟨(epochStep_no_improve_fields l sn s h).2.2.1,
    (epochStep_no_improve_fields l sn s h).1⟩

/-- C1 amended witness: the invariant instantiated after one iteration of a
concrete run, and a concrete non-improving step that leaves the snapshot
untouched. -/
theorem C1_best_snapshot_invariant_witness :
    (∃ j, j < 1 ∧
      (iter (fun _ => (1:ℚ)) (fun n : Nat => n) 1).best_loss = some 1 ∧
      (iter (fun _ => (1:ℚ)) (fun n : Nat => n) 1).preliminary = some (j+1) ∧
      ∀ i, i < 1 → (1:ℚ) ≤ 1 + 1/1000000) ∧
    (epochStep (1:ℚ) (5:Nat)
      { best_loss := some 0, early_stop_counter := 0, preliminary := some 3,
        loss_history := [0],
        sched := { lr := 1/200, best := some 0, num_bad_epochs := 0,
                   cooldown_counter := 0 } }).preliminary = some 3 := by
  constructor
  · exact (C1_best_snapshot_invariant Nat).2 (fun _ => (1:ℚ)) (fun n : Nat => n) 1
      (by norm_num)
  · exact ((C1_best_snapshot_invariant Nat).1 1 5 _ (by norm_num [ltBest])).1

/-- C5 counterexample: with constant observed losses, after 4 epochs the
scheduler has seen exactly 3 consecutive non-improving evaluations, yet the
learning rate still equals the initial PaperParams.LR = 5e-3 — it has not
been multiplied by 0.8; the reduction only happens at epoch 5, the 4th
consecutive non-improving evaluation, because ReduceLROnPlateau reduces only
when num_bad_epochs exceeds patience = 3.  The stop condition is false for
the first four iterations, so these states occur in the real run. -/
theorem C5_scheduler_counterexample :
    (iter (fun _ => (1:ℚ)) (fun n : Nat => n) 4).sched.num_bad_epochs = 3 ∧
    (iter (fun _ => (1:ℚ)) (fun n : Nat => n) 4).sched.lr = PaperParams.LR ∧
    PaperParams.LR ≠ (4/5) * PaperParams.LR ∧
    (iter (fun _ => (1:ℚ)) (fun n : Nat => n) 5).sched.lr = (4/5) * PaperParams.LR ∧
    shouldStop (1/10000) 10 (iter (fun _ => (1:ℚ)) (fun n : Nat => n) 1) = false ∧
    shouldStop (1/10000) 10 (iter (fun _ => (1:ℚ)) (fun n : Nat => n) 2) = false ∧
    shouldStop (1/10000) 10 (iter (fun _ => (1:ℚ)) (fun n : Nat => n) 3) = false ∧
    shouldStop (1/10000) 10 (iter (fun _ => (1:ℚ)) (fun n : Nat => n) 4) = false := by
  have e1 : iter (fun _ => (1:ℚ)) (fun n : Nat => n) 1 =
      { best_loss := some 1, early_stop_counter := 0, preliminary := some 1,
        loss_history := [1],
        sched := { lr := 1/200, best := some 1, num_bad_epochs := 0,
                   cooldown_counter := 0 } } := by
    have h : iter (fun _ => (1:ℚ)) (fun n : Nat => n) 1 =
        epochStep 1 1 (initState Nat) := rfl
    rw [h]
    norm_num [epochStep, ltBest, initState, schedStep, schedIsBetter, PaperParams.LR]
  have e2 : iter (fun _ => (1:ℚ)) (fun n : Nat => n) 2 =
      { best_loss := some 1, early_stop_counter := 1, preliminary := some 1,
        loss_history := [1, 1],
        sched := { lr := 1/200, best := some 1, num_bad_epochs := 1,
                   cooldown_counter := 0 } } := by
    have h : iter (fun _ => (1:ℚ)) (fun n : Nat => n) 2 =
        epochStep 1 2 (iter (fun _ => (1:ℚ)) (fun n : Nat => n) 1) := rfl
    rw [h, e1]
    norm_num [epochStep, ltBest, schedStep, schedIsBetter]
  have e3 : iter (fun _ => (1:ℚ)) (fun n : Nat => n) 3 =
      { best_loss := some 1, early_stop_counter := 2, preliminary := some 1,
        loss_history := [1, 1, 1],
        sched := { lr := 1/200, best := some 1, num_bad_epochs := 2,
                   cooldown_counter := 0 } } := by
    have h : iter (fun _ => (1:ℚ)) (fun n : Nat => n) 3 =
        epochStep 1 3 (iter (fun _ => (1:ℚ)) (fun n : Nat => n) 2) := rfl
    rw [h, e2]
    norm_num [epochStep, ltBest, schedStep, schedIsBetter]
  have e4 : iter (fun _ => (1:ℚ)) (fun n : Nat => n) 4 =
      { best_loss := some 1, early_stop_counter := 3, preliminary := some 1,
        loss_history := [1, 1, 1, 1],
        sched := { lr := 1/200, best := some 1, num_bad_epochs := 3,
                   cooldown_counter := 0 } } := by
    have h : iter (fun _ => (1:ℚ)) (fun n : Nat => n) 4 =
        epochStep 1 4 (iter (fun _ => (1:ℚ)) (fun n : Nat => n) 3) := rfl
    rw [h, e3]
    norm_num [epochStep, ltBest, schedStep, schedIsBetter]
  have e5 : iter (fun _ => (1:ℚ)) (fun n : Nat => n) 5 =
      { best_loss := some 1, early_stop_counter := 4, preliminary := some 1,
        loss_history := [1, 1, 1, 1, 1],
        sched := { lr := 1/250, best := some 1, num_bad_epochs := 0,
                   cooldown_counter := 0 } } := by
    have h : iter (fun _ => (1:ℚ)) (fun n : Nat => n) 5 =
        epochStep 1 5 (iter (fun _ => (1:ℚ)) (fun n : Nat => n) 4) := rfl
    rw [h, e4]
    norm_num [epochStep, ltBest, schedStep, schedIsBetter, reduceLR]
  refine ⟨by rw [e4], by rw [e4]; norm_num [PaperParams.LR],
    by norm_num [PaperParams.LR], ?_, ?_, ?_, ?_, ?_⟩
  · rw [e5]
    norm_num [PaperParams.LR]
  · rw [e1]
    norm_num [shouldStop, bestLT]
  · rw [e2]
    norm_num [shouldStop, bestLT]
  · rw [e3]
    norm_num [shouldStop, bestLT]
  · rw [e4]
    norm_num [shouldStop, bestLT]

/-- C5 amended: the scheduler update of each iteration is exactly
ReduceLROnPlateau.step applied to the just-observed loss, after the
improvement bookkeeping of the same iteration; with a zero cooldown counter
(always the case here, cooldown = 0) the learning rate is replaced by
reduceLR (multiplication by the decay factor 0.8, guarded by eps = 1e-8)
exactly when the loss has failed to improve — in the scheduler's own
relative sense — for MORE than 3 consecutive evaluations, i.e. on the 4th
consecutive non-improving evaluation; the scheduler patience 3 is distinct
from the outer stopping patience of 10. -/
theorem C5_scheduler_amended (T : Type) :
    (∀ (l : ℚ) (sn : T) (s : LoopState T),
      (epochStep l sn s).sched = schedStep s.sched l) ∧
    (∀ (s : SchedState) (m : ℚ), s.cooldown_counter = 0 →
      (schedStep s m).lr =
        (if 3 < (if schedIsBetter m s.best then 0 else s.num_bad_epochs + 1) then
          reduceLR s.lr
        else s.lr)) ∧
    (∀ lr : ℚ, 1/20000000 < lr → reduceLR lr = (4/5) * lr) :=
  ⟨epochStep_sched, schedStep_lr, reduceLR_mul⟩

/-- C5 amended witness: at a scheduler state with 3 previous bad epochs and
a non-improving metric, the rule fires, and reduceLR is multiplication by
0.8 at a concrete learning rate. -/
theorem C5_scheduler_amended_witness :
    (schedStep
      { lr := 1/200, best := some 1, num_bad_epochs := 3,
        cooldown_counter := 0 } 1).lr =
      (if 3 < (if schedIsBetter 1 (some 1) then 0 else 3 + 1) then
        reduceLR (1/200)
      else (1/200 : ℚ)) ∧
    reduceLR (1/100) = (4/5) * (1/100) := by
  constructor
  · exact (C5_scheduler_amended Nat).2.1
      { lr := 1/200, best := some 1, num_bad_epochs := 3, cooldown_counter := 0 } 1 rfl
  · exact (C5_scheduler_amended Nat).2.2 (1/100) (by norm_num)

end Aberation
